import Mathlib

/-!
# Verification of the web-server log parsing and analytics engine

A shallow embedding of the repository's core (`src/python/log_parser.py`,
`src/models.py`, `src/analytics.py`) together with theorems settling the
specification claims.

Modelling conventions:
* Python `datetime.strptime` with format `dd/Mon/YYYY:HH:MM:SS` is embedded
  over the 20-character (two-digit day) shape that the log format uses.
  `strptime` compiles the format's space to `\s+`, so the offset token may
  be preceded by any non-empty whitespace run; `%z` itself is embedded over
  the token shapes the claims exercise: a signed four-digit `±HHMM` token
  (the regular-expression behind `%z` requires the minutes part to be
  `[0-5][0-9]`) and the literal token `Z` (accepted by `%z` as UTC) — the
  colon and seconds forms of `%z` lie outside every theorem's scope, since
  each quantified statement either fixes the token shape or excludes
  `+`/`-`-headed tails.  `datetime.timezone` rejects offsets of 24 hours or
  more with a message containing the words "offset" and "timedelta".
* Exceptions become `Except` values; `ParseError` and `ValueError` are the
  two constructors of `PFail`.
* Python floats arising from `/ 1000.0` are embedded as rationals.
* Error-message strings mirror the source f-strings; incidental formatting
  (single quotes around interpolated values, the `:.2f` rendering of the
  offset in hours, the appended `str(e)`) is elided, which no claim depends
  on.  Messages are built with explicit parenthesisation so that the word
  "timezone" or "offset" can be split off as a literal sub-string.
-/

namespace LogRepo

/-! ## Calendar model (Python `datetime` construction checks) -/

/-- Gregorian leap-year test, as `datetime` uses. -/
def isLeap (y : Nat) : Bool := y % 4 == 0 && (y % 100 != 0 || y % 400 == 0)

/-- Days in a month, as `datetime` validates on construction. -/
def daysInMonth (y m : Nat) : Nat :=
  if m = 2 then (if isLeap y then 29 else 28)
  else if m = 4 ∨ m = 6 ∨ m = 9 ∨ m = 11 then 30
  else 31

/-- A naive calendar date-time, the value `datetime.strptime` constructs. -/
structure DT where
  year : Nat
  month : Nat
  day : Nat
  hour : Nat
  minute : Nat
  second : Nat
  deriving DecidableEq, Repr

/-- `%b` month abbreviations; `strptime` matches them case-insensitively. -/
def monthNum (s : List Char) : Option Nat :=
  match s.map Char.toLower with
  | ['j','a','n'] => some 1
  | ['f','e','b'] => some 2
  | ['m','a','r'] => some 3
  | ['a','p','r'] => some 4
  | ['m','a','y'] => some 5
  | ['j','u','n'] => some 6
  | ['j','u','l'] => some 7
  | ['a','u','g'] => some 8
  | ['s','e','p'] => some 9
  | ['o','c','t'] => some 10
  | ['n','o','v'] => some 11
  | ['d','e','c'] => some 12
  | _ => none

/-- Numeric value of two decimal digit characters. -/
def d2 (a b : Char) : Nat := (a.toNat - 48) * 10 + (b.toNat - 48)

/-- Parse the 20-character `dd/Mon/YYYY:HH:MM:SS` shape exactly as
`datetime.strptime(s, '%d/%b/%Y:%H:%M:%S')` accepts it on such input:
two-digit day in `01..31` further validated against the month, four-digit
year (at least 1, as `datetime` requires), hour `00..23`, minute and
second `00..59`. -/
def parseDT20 : List Char → Option DT
  | [a1, a2, '/', m1, m2, m3, '/', y1, y2, y3, y4, ':', h1, h2, ':', n1, n2, ':', s1, s2] =>
    if (a1.isDigit && a2.isDigit && y1.isDigit && y2.isDigit && y3.isDigit && y4.isDigit &&
        h1.isDigit && h2.isDigit && n1.isDigit && n2.isDigit && s1.isDigit && s2.isDigit) then
      match monthNum [m1, m2, m3] with
      | some mo =>
        let dy := d2 a1 a2
        let yr := d2 y1 y2 * 100 + d2 y3 y4
        let hr := d2 h1 h2
        let mi := d2 n1 n2
        let sc := d2 s1 s2
        if 1 ≤ dy ∧ dy ≤ daysInMonth yr mo ∧ 1 ≤ yr ∧ hr ≤ 23 ∧ mi ≤ 59 ∧ sc ≤ 59 then
          some ⟨yr, mo, dy, hr, mi, sc⟩
        else none
      | none => none
    else none
  | _ => none

/-! ## Timezone token (`%z`) model -/

/-- Python whitespace, restricted to ASCII: the characters `str.strip`
removes and the pattern `\s` matches are the Unicode whitespace code
points, which below `0x80` are exactly space, `\t`, `\n`, `\v`, `\f`,
`\r` and the separators `\x1c`..`\x1f`.  (Non-ASCII whitespace such as
`\xa0` also belongs to both sets; the quantified theorems below restrict
themselves to ASCII tails, where this predicate is exact.) -/
def isPyWS (c : Char) : Bool :=
  c = ' ' ∨ c = '\t' ∨ c = '\n' ∨ c = '\r' ∨ c = '\x0b' ∨ c = '\x0c' ∨
  c = '\x1c' ∨ c = '\x1d' ∨ c = '\x1e' ∨ c = '\x1f'

/-- Python `str.strip()` on a character list. -/
def pyStrip (l : List Char) : List Char :=
  ((l.dropWhile isPyWS).reverse.dropWhile isPyWS).reverse

/-- The `%z` offset tokens reachable from the log format: `±HHMM` with
minutes `00..59` (the `%z` regular expression requires `[0-5][0-9]`
minutes), and the literal `Z` (UTC).  Returns the offset in seconds. -/
def tzOffset? : List Char → Option Int
  | [z] => if z = 'Z' then some 0 else none
  | [sg, a, b, c, d] =>
    if (sg = '+' ∨ sg = '-') ∧ a.isDigit ∧ b.isDigit ∧
       ('0' ≤ c ∧ c ≤ '5') ∧ c.isDigit ∧ d.isDigit then
      let secs : Int := (d2 a b * 3600 + d2 c d * 60 : Nat)
      some (if sg = '+' then secs else -secs)
    else none
  | _ => none

/-- Outcome of `datetime.strptime(s, '%d/%b/%Y:%H:%M:%S %z')`. -/
inductive StrptimeRes where
  /-- The whole string matched and the timezone object was constructed. -/
  | aware (dt : DT) (off : Int)
  /-- The regular expression matched but `datetime.timezone` rejected the
  offset (`|off| ≥ 24` hours): a `ValueError` whose message contains the
  words "offset" and "timedelta". -/
  | offsetError (off : Int)
  /-- No match (or unconverted trailing data): a `ValueError` whose message
  does not contain "offset". -/
  | noMatch
  deriving DecidableEq, Repr

/-- `datetime.strptime(s, '%d/%b/%Y:%H:%M:%S %z')` over the 20-character
date-time shape.  `strptime` compiles the format's space to `\s+`, so
the input is the date-time part, a non-empty whitespace run, then a
`%z` token consuming the rest of the string exactly (the run is forced
maximal because no `%z` token starts with whitespace). -/
def strptimeAware (s : List Char) : StrptimeRes :=
  match parseDT20 (s.take 20), s.drop 20 with
  | some dt, c :: rest =>
    if isPyWS c then
      match tzOffset? (rest.dropWhile isPyWS) with
      | some off => if 86400 ≤ off.natAbs then .offsetError off else .aware dt off
      | none => .noMatch
    else .noMatch
  | _, _ => .noMatch

/-! ## `LogParser._parse_timestamp` -/

/-- A parsed timestamp: `datetime` with or without `tzinfo`. -/
inductive TsValue where
  | naive (dt : DT)
  | aware (dt : DT) (offsetSecs : Int)
  deriving DecidableEq, Repr

/-- Message raised when the offset parsed but lies outside
`[-43200, 50400]` (the interpolated hours rendering is elided). -/
def tsMsgOutOfRange (s : List Char) : String :=
  "Invalid " ++ ("timezone" ++ (" offset in timestamp: " ++
    (String.mk s ++ ". Offset must be between -12:00 and +14:00.")))

/-- Message raised when `strptime` itself rejected the offset as a
timedelta out of bounds (the appended `str(e)` is elided). -/
def tsMsgTooLarge (s : List Char) : String :=
  "Invalid " ++ ("timezone" ++ (" offset in timestamp: " ++
    (String.mk s ++ ". Offset must be between -12:00 and +14:00. " ++
     "Python datetime validation error.")))

/-- Message raised when a `+`/`-`-led trailing token failed to parse
(single quotes around the token are elided). -/
def tsMsgBadTzFormat (s tz : List Char) : String :=
  "Invalid " ++ ("timezone" ++ (" format in timestamp: " ++
    (String.mk s ++ ". Timezone offset must be in +-HHMM format (e.g., +0000, -0500). Got: " ++
     String.mk tz)))

/-- Message raised when both the aware and the naive parse failed. -/
def tsMsgBadFormat (s : List Char) : String :=
  "Invalid timestamp format: " ++ (String.mk s ++
    ". Expected format: dd/Mon/YYYY:HH:MM:SS +-HHMM or dd/Mon/YYYY:HH:MM:SS.")

/-- `LogParser._parse_timestamp`.  The `Except` message is the
`ParseError` text.  Control flow mirrors the source: the out-of-range
check raises `ParseError`, which is not a `ValueError` and therefore
escapes the `except ValueError` handler; the `strptime` "offset …
timedelta" `ValueError` is re-raised as a `ParseError`; any other
`ValueError` falls through to the trailing-token check (which fires only
when the string is at least 22 characters and the stripped tail starts
with `+` or `-`) and then to the naive fallback on the first 20
characters. -/
def parseTimestamp (s : List Char) : Except String TsValue :=
  match strptimeAware s with
  | .aware dt off =>
    if off < -43200 ∨ off > 50400 then .error (tsMsgOutOfRange s)
    else .ok (.aware dt off)
  | .offsetError _ => .error (tsMsgTooLarge s)
  | .noMatch =>
    if 20 < s.length ∧ 22 ≤ s.length ∧
       (pyStrip (s.drop 20) ≠ [] ∧
        ((pyStrip (s.drop 20)).head? = some '+' ∨ (pyStrip (s.drop 20)).head? = some '-')) then
      .error (tsMsgBadTzFormat s (pyStrip (s.drop 20)))
    else
      match parseDT20 (s.take 20) with
      | some dt => .ok (.naive dt)
      | none => .error (tsMsgBadFormat s)

/-! ## Regular-expression engine for the three line grammars

The three anchored patterns (`CLF_PATTERN`, `COMBINED_PATTERN`,
`EXTENDED_PATTERN`) are built from literal characters and four quantified
character classes, every capturing group wrapping exactly one quantified
class (or the alternation `(\d+|-)`).  The matcher below implements
Python's leftmost, greedy, backtracking semantics for exactly these
constructs, with `^`/`$` anchoring (full-string match, as `re.match` plus
the trailing `$` give on newline-free input). -/

/-- The character classes used by the patterns. -/
inductive Cls where
  /-- `\S` -/
  | nonSpace
  /-- `\d` -/
  | digit
  /-- `[^\]]` -/
  | notRBracket
  /-- `[^"]` -/
  | notQuote
  deriving DecidableEq, Repr

/-- Class membership: `\S` is the complement of Python's whitespace,
`\d` the ASCII digits (no claim involves non-ASCII digits). -/
def Cls.sat : Cls → Char → Bool
  | .nonSpace, c => !isPyWS c
  | .digit, c => c.isDigit
  | .notRBracket, c => c ≠ ']'
  | .notQuote, c => c ≠ '"'

/-- One element of a pattern. -/
inductive Atom where
  /-- A literal character. -/
  | lit (c : Char)
  /-- `cls+`, capturing into group `g` when present. -/
  | plus (cl : Cls) (g : Option Nat)
  /-- `cls*`, capturing into group `g` when present. -/
  | star (cl : Cls) (g : Option Nat)
  /-- The alternation `(\d+|-)` capturing into group `g`. -/
  | digitsOrDash (g : Nat)
  deriving DecidableEq, Repr

/-- Captured groups: index paired with captured characters. -/
abbrev Caps := List (Nat × List Char)

/-- Record a capture when the atom is a capturing group. -/
def addCap (g : Option Nat) (chunk : List Char) (cs : Caps) : Caps :=
  match g with
  | some i => (i, chunk) :: cs
  | none => cs

/-- Length of the maximal prefix of `l` inside class `cl`. -/
def runLen (cl : Cls) (l : List Char) : Nat := (l.takeWhile cl.sat).length

/-- Greedy backtracking over the split length: try `k, k-1, …, 1`. -/
def tryKs (next : List Char → Option Caps) (g : Option Nat) (xs : List Char) : Nat → Option Caps
  | 0 => none
  | k + 1 =>
    match (next (xs.drop (k + 1))).map (addCap g (xs.take (k + 1))) with
    | some r => some r
    | none => tryKs next g xs k

/-- Match a whole pattern against a whole string, returning the captures,
with Python's greedy backtracking order. -/
def matchAtoms : List Atom → List Char → Option Caps
  | [], xs => if xs = [] then some [] else none
  | .lit _ :: _, [] => none
  | .lit c :: ps, y :: ys => if y = c then matchAtoms ps ys else none
  | .plus cl g :: ps, xs => tryKs (fun zs => matchAtoms ps zs) g xs (runLen cl xs)
  | .star cl g :: ps, xs =>
    match tryKs (fun zs => matchAtoms ps zs) g xs (runLen cl xs) with
    | some r => some r
    | none => (matchAtoms ps xs).map (addCap g [])
  | .digitsOrDash g :: ps, xs =>
    match tryKs (fun zs => matchAtoms ps zs) g (xs) (runLen .digit xs) with
    | some r => some r
    | none =>
      match xs with
      | '-' :: ys => (matchAtoms ps ys).map (addCap (some g) ['-'])
      | _ => none

/-- `CLF_PATTERN`:
`^(\S+) \S+ \S+ \[([^\]]+)\] "(\S+) (\S+) (\S+)" (\d+) (\d+|-)$`. -/
def clfAtoms : List Atom :=
  [.plus .nonSpace (some 1), .lit ' ', .plus .nonSpace none, .lit ' ',
   .plus .nonSpace none, .lit ' ', .lit '[', .plus .notRBracket (some 2),
   .lit ']', .lit ' ', .lit '"', .plus .nonSpace (some 3), .lit ' ',
   .plus .nonSpace (some 4), .lit ' ', .plus .nonSpace (some 5), .lit '"',
   .lit ' ', .plus .digit (some 6), .lit ' ', .digitsOrDash 7]

/-- `COMBINED_PATTERN`: the CLF core followed by
` "([^"]*)" "([^"]*)"`. -/
def combinedAtoms : List Atom :=
  clfAtoms ++
  [.lit ' ', .lit '"', .star .notQuote (some 8), .lit '"', .lit ' ',
   .lit '"', .star .notQuote (some 9), .lit '"']

/-- `EXTENDED_PATTERN`: the combined pattern followed by ` (\d+)$`. -/
def extendedAtoms : List Atom :=
  combinedAtoms ++ [.lit ' ', .plus .digit (some 10)]

/-- Extract a captured group (groups in these patterns always
participate in a successful match, and `*` groups may be empty). -/
def getGroup (cs : Caps) (i : Nat) : List Char :=
  match cs.lookup i with
  | some l => l
  | none => []

/-! ## Record model (`models.py`) -/

/-- `HttpMethod` enumeration. -/
inductive HttpMethod where
  | GET | POST | PUT | DELETE | PATCH | HEAD | OPTIONS
  deriving DecidableEq, Repr

/-- `HttpMethod(value)` lookup: exact, case-sensitive value match;
`none` models the `ValueError` the `Enum` call raises. -/
def methodFromString : String → Option HttpMethod
  | "GET" => some .GET
  | "POST" => some .POST
  | "PUT" => some .PUT
  | "DELETE" => some .DELETE
  | "PATCH" => some .PATCH
  | "HEAD" => some .HEAD
  | "OPTIONS" => some .OPTIONS
  | _ => none

/-- A parse failure: the exception Python raises.  `parseError` is
`models.ParseError`; `valueError` is a built-in `ValueError` (raised by
the `HttpMethod` enum call and by `LogEntry._validate`), which the
stream parser's `except ParseError` does not catch. -/
inductive PFail where
  | parseError (msg : String)
  | valueError (msg : String)
  deriving DecidableEq, Repr

/-- `models.LogEntry` (response size is produced by the grammars as a
non-negative integer, so the `response_size < 0` validation branch is
vacuous here). -/
structure LogEntry where
  ip_address : String
  timestamp : TsValue
  method : HttpMethod
  path : String
  protocol : String
  status_code : Nat
  response_size : Nat
  referrer : Option String
  user_agent : Option String
  response_time : Option ℚ
  deriving DecidableEq, Repr

/-- The IP pattern of `LogEntry._validate`:
`^\d{1,3}\.\d{1,3}\.\d{1,3}\.\d{1,3}$`. -/
def validIPv4 (s : List Char) : Bool :=
  match s.splitOn '.' with
  | [a, b, c, d] =>
    [a, b, c, d].all fun p => p ≠ [] ∧ p.length ≤ 3 ∧ p.all Char.isDigit
  | _ => false

/-- `LogEntry._validate`, in source order; `some msg` is the
`ValueError` message (single quotes elided). -/
def validateEntry (ip : List Char) (status : Nat) : Option String :=
  if ip = [] then some "IP address is required"
  else if ¬ validIPv4 ip then some ("Invalid IP address format: " ++ String.mk ip)
  else if status < 100 ∨ status > 599 then
    some ("Invalid HTTP status code: " ++ toString status)
  else none

/-! ## `LogParser.parse_line` -/

/-- Numeric value of a digit string (`int` on a `\d+` capture). -/
def natOfDigits (l : List Char) : Nat :=
  l.foldl (fun n c => n * 10 + (c.toNat - 48)) 0

/-- `LogParser._parse_size`: `-` maps to `0`; the capture is otherwise
all digits, so the `int` conversion cannot fail. -/
def parseSize (l : List Char) : Nat :=
  if l = ['-'] then 0 else natOfDigits l

/-- `LogParser._parse_optional_field`: `-` or empty becomes `None`. -/
def optField (l : List Char) : Option String :=
  if l = ['-'] ∨ l = [] then none else some (String.mk l)

/-- `LogParser._create_entry_from_match` (combined/extended): group
conversions, then the timestamp parse (a `ParseError`), then the
`HttpMethod` enum call (a `ValueError`), then construction with
validation (a `ValueError`), in source order.  The trailing integer of
the extended format is divided by `1000.0` exactly as in the source. -/
def createEntryFromMatch (cs : Caps) (includeResponseTime : Bool) : Except PFail LogEntry :=
  let ip := getGroup cs 1
  let status := natOfDigits (getGroup cs 6)
  let responseTime : Option ℚ :=
    if includeResponseTime then some ((natOfDigits (getGroup cs 10) : ℚ) / 1000) else none
  match parseTimestamp (getGroup cs 2) with
  | .error m => .error (.parseError m)
  | .ok ts =>
    match methodFromString (String.mk (getGroup cs 3)) with
    | none => .error (.valueError (String.mk (getGroup cs 3) ++ " is not a valid HttpMethod"))
    | some meth =>
      match validateEntry ip status with
      | some m => .error (.valueError m)
      | none =>
        .ok ⟨String.mk ip, ts, meth, String.mk (getGroup cs 4), String.mk (getGroup cs 5),
             status, parseSize (getGroup cs 7), optField (getGroup cs 8),
             optField (getGroup cs 9), responseTime⟩

/-- `LogParser._create_entry_from_clf_match`: as above with no
referrer, user agent or response time. -/
def createEntryFromClfMatch (cs : Caps) : Except PFail LogEntry :=
  let ip := getGroup cs 1
  let status := natOfDigits (getGroup cs 6)
  match parseTimestamp (getGroup cs 2) with
  | .error m => .error (.parseError m)
  | .ok ts =>
    match methodFromString (String.mk (getGroup cs 3)) with
    | none => .error (.valueError (String.mk (getGroup cs 3) ++ " is not a valid HttpMethod"))
    | some meth =>
      match validateEntry ip status with
      | some m => .error (.valueError m)
      | none =>
        .ok ⟨String.mk ip, ts, meth, String.mk (getGroup cs 4), String.mk (getGroup cs 5),
             status, parseSize (getGroup cs 7), none, none, none⟩

/-- `LogParser.parse_line`: extended first, then combined, then CLF;
no match raises a `ParseError`. -/
def parseLine (line : List Char) : Except PFail LogEntry :=
  match matchAtoms extendedAtoms line with
  | some cs => createEntryFromMatch cs true
  | none =>
    match matchAtoms combinedAtoms line with
    | some cs => createEntryFromMatch cs false
    | none =>
      match matchAtoms clfAtoms line with
      | some cs => createEntryFromClfMatch cs
      | none =>
        .error (.parseError ("Unable to parse log line: " ++
          (String.mk (line.take 100) ++ "...")))

/-- One string occurs inside another (with an explicit split). -/
def containsSub (hay needle : String) : Prop :=
  ∃ a b : String, hay = a ++ (needle ++ b)

/-- The error-wording requirement of the spec: the message mentions the
word "timezone" or the word "offset". -/
def mentionsTimezoneOrOffset (m : String) : Prop :=
  containsSub m "timezone" ∨ containsSub m "offset"

/-! ## `LogParser._parse_stream` and `get_parsing_stats` -/

/-- The observable result of driving `_parse_stream` to completion (or
to the exception that ends it): the entries yielded, the counters and
stored error messages, and the exception that escaped, if any. -/
structure StreamResult where
  entries : List LogEntry
  parsed : Nat
  errorCount : Nat
  errors : List String
  aborted : Option PFail
  deriving DecidableEq, Repr

/-- A line the stream skips silently: blank after `strip`, or a
comment. -/
def skipsLine (l : List Char) : Bool :=
  pyStrip l = [] || (pyStrip l).head? == some '#'

/-- `_parse_stream` from line number `n` (lines are numbered by
`enumerate(file, 1)`, counting skipped lines too).  Each line is
stripped, then parsed; a `ParseError` is counted, recorded as
`"Line <n>: <msg>"` and, in strict mode, re-raised with that prefixed
message; a `ValueError` is not caught at all, so it aborts the stream in
either mode before touching any counter. -/
def parseStreamGo (strict : Bool) : List (List Char) → Nat → StreamResult
  | [], _ => ⟨[], 0, 0, [], none⟩
  | l :: ls, n =>
    if skipsLine l then parseStreamGo strict ls (n + 1)
    else
      match parseLine (pyStrip l) with
      | .ok e =>
        let r := parseStreamGo strict ls (n + 1)
        ⟨e :: r.entries, r.parsed + 1, r.errorCount, r.errors, r.aborted⟩
      | .error (.parseError m) =>
        let em := "Line " ++ (toString n ++ (": " ++ m))
        if strict then ⟨[], 0, 1, [em], some (.parseError em)⟩
        else
          let r := parseStreamGo strict ls (n + 1)
          ⟨r.entries, r.parsed, r.errorCount + 1, em :: r.errors, r.aborted⟩
      | .error (.valueError m) => ⟨[], 0, 0, [], some (.valueError m)⟩

/-- `_parse_stream` over a whole line sequence (counters freshly
reset, as `parse_file_streaming` does before delegating). -/
def parseStream (strict : Bool) (lines : List (List Char)) : StreamResult :=
  parseStreamGo strict lines 1

/-- `get_parsing_stats`: counters, success rate, and only the first 10
stored error messages. -/
structure ParsingStats where
  parsed_count : Nat
  error_count : Nat
  success_rate : ℚ
  errors : List String
  deriving DecidableEq, Repr

/-- `LogParser.get_parsing_stats`. -/
def getParsingStats (r : StreamResult) : ParsingStats :=
  ⟨r.parsed, r.errorCount,
   if r.parsed + r.errorCount > 0 then (r.parsed : ℚ) / (r.parsed + r.errorCount) else 0,
   r.errors.take 10⟩

/-! ## Analytics model (`analytics.py`)

The analytics engine never re-parses; it consumes entry collections
(its tests build them directly).  Only the fields the analytics code
reads are modelled, and the timestamp is abstracted to seconds on a
time line (`datetime` ordering, difference and hour-of-day are faithfully
represented; calendar fields beyond the hour play no role in the claims).
Python dictionaries are modelled as insertion-ordered association
lists. -/

/-- An entry as the analytics engine sees it. -/
structure AEntry where
  ip_address : String
  timestamp : Nat
  path : String
  status_code : Nat
  response_size : Nat
  referrer : Option String
  user_agent : Option String
  response_time : Option ℚ
  deriving DecidableEq, Repr

/-- `LogEntry.is_error`: status at least 400. -/
def AEntry.is_error (e : AEntry) : Bool := 400 ≤ e.status_code

/-- Hour of day of a timestamp (what `strftime('%H:00')` reads). -/
def hourOf (t : Nat) : Nat := t / 3600 % 24

/-- Insertion-ordered counting, the behaviour of `collections.Counter`
fed one item at a time: an existing key is bumped in place, a new key
is appended. -/
def bump {α : Type} [DecidableEq α] : List (α × Nat) → α → List (α × Nat)
  | [], x => [(x, 1)]
  | (k, c) :: rest, x =>
    if k = x then (k, c + 1) :: rest else (k, c) :: bump rest x

/-- `Counter(iterable)` as an insertion-ordered association list. -/
def counterOf {α : Type} [DecidableEq α] (l : List α) : List (α × Nat) :=
  l.foldl bump []

/-- Stable insertion (descending by count): the new, earlier element
passes only strictly larger counts, so equal counts keep first-seen
order. -/
def insertByCountDesc {α : Type} (p : α × Nat) : List (α × Nat) → List (α × Nat)
  | [] => [p]
  | q :: rest => if p.2 < q.2 then q :: insertByCountDesc p rest else p :: q :: rest

/-- Stable sort, descending by count.  `Counter.most_common` sorts its
insertion-ordered items by count descending with a stable sort
(`heapq.nlargest` is documented equivalent to stable
`sorted(..., reverse=True)` truncation), which this insertion sort
reproduces. -/
def sortByCountDesc {α : Type} (l : List (α × Nat)) : List (α × Nat) :=
  l.foldr insertByCountDesc []

/-- `Counter(l).most_common(n)`. -/
def mostCommon {α : Type} [DecidableEq α] (n : Nat) (l : List α) : List (α × Nat) :=
  (sortByCountDesc (counterOf l)).take n

/-- `LogAnalytics.get_top_endpoints`. -/
def getTopEndpoints (entries : List AEntry) (n : Nat) : List (String × Nat) :=
  mostCommon n (entries.map (·.path))

/-- `LogAnalytics.get_top_ips`. -/
def getTopIps (entries : List AEntry) (n : Nat) : List (String × Nat) :=
  mostCommon n (entries.map (·.ip_address))

/-- `LogAnalytics.analyze_user_agents` (Python truthiness filters out
both `None` and the empty string). -/
def analyzeUserAgents (entries : List AEntry) (n : Nat) : List (String × Nat) :=
  mostCommon n (entries.filterMap fun e =>
    match e.user_agent with
    | some s => if s = "" then none else some s
    | none => none)

/-- `LogAnalytics.analyze_referrers`. -/
def analyzeReferrers (entries : List AEntry) (n : Nat) : List (String × Nat) :=
  mostCommon n (entries.filterMap fun e =>
    match e.referrer with
    | some s => if s = "" then none else some s
    | none => none)

/-- The `"HH:00"` key `strftime('%H:00')` produces. -/
def hourKey (h : Nat) : String :=
  (if h < 10 then "0" ++ toString h else toString h) ++ ":00"

/-- Stable insertion ascending by `Nat` key. -/
def insertByKeyAsc (p : Nat × Nat) : List (Nat × Nat) → List (Nat × Nat)
  | [] => [p]
  | q :: rest => if q.1 < p.1 then q :: insertByKeyAsc p rest else p :: q :: rest

/-- Sort ascending by `Nat` key. -/
def sortByKeyAsc (l : List (Nat × Nat)) : List (Nat × Nat) :=
  l.foldr insertByKeyAsc []

/-- `LogAnalytics.get_hourly_traffic_pattern`: count per hour of day,
append the missing hours at zero, and return the mapping sorted by key.
The Python keys are the strings `"00:00"`..`"23:00"`, whose
lexicographic order agrees with the numeric order of the hour, so the
sort is performed on the hour and the keys rendered afterwards. -/
def getHourlyTrafficPattern (entries : List AEntry) : List (String × Nat) :=
  let observed := counterOf (entries.map fun e => hourOf e.timestamp)
  let filled := observed ++
    (((List.range 24).filter fun h => h ∉ observed.map (·.1)).map fun h => (h, 0))
  (sortByKeyAsc filled).map fun p => (hourKey p.1, p.2)

/-- `LogAnalytics.get_error_entries`. -/
def getErrorEntries (entries : List AEntry) : List AEntry :=
  entries.filter (·.is_error)

/-- `models.AnalyticsReport` (only the shape; `to_dict` rounding is a
collaborator concern). -/
structure AnalyticsReport where
  total_requests : Nat
  unique_ips : Nat
  error_rate : ℚ
  avg_response_size : ℚ
  top_endpoints : List (String × Nat)
  top_ips : List (String × Nat)
  status_code_distribution : List (Nat × Nat)
  hourly_traffic : List (String × Nat)
  error_log : List AEntry
  deriving DecidableEq, Repr

/-- `LogAnalytics._empty_report`: every field at its identity; in
particular `hourly_traffic` is the empty mapping. -/
def emptyReport : AnalyticsReport := ⟨0, 0, 0, 0, [], [], [], [], []⟩

/-- `LogAnalytics.get_unique_ip_count` (`len(set(...))`). -/
def getUniqueIpCount (entries : List AEntry) : Nat :=
  (entries.map (·.ip_address)).dedup.length

/-- `LogAnalytics.calculate_error_rate` (percent). -/
def calculateErrorRate (entries : List AEntry) : ℚ :=
  if entries.length = 0 then 0
  else ((entries.filter (·.is_error)).length : ℚ) / entries.length * 100

/-- `LogAnalytics.calculate_avg_response_size`. -/
def calculateAvgResponseSize (entries : List AEntry) : ℚ :=
  if entries = [] then 0
  else ((entries.map (·.response_size)).sum : ℚ) / entries.length

/-- `LogAnalytics.generate_report`: the empty collection short-circuits
to `_empty_report`. -/
def generateReport (entries : List AEntry) (topN : Nat) : AnalyticsReport :=
  if entries = [] then emptyReport
  else
    ⟨entries.length, getUniqueIpCount entries, calculateErrorRate entries,
     calculateAvgResponseSize entries, getTopEndpoints entries topN,
     getTopIps entries topN, counterOf (entries.map (·.status_code)),
     getHourlyTrafficPattern entries, getErrorEntries entries⟩

/-! ## Trend engine (`TrendAnalyzer.analyze_traffic_trends`) -/

/-- One emitted trend window. -/
structure TrendPoint where
  window_start : Nat
  request_count : Nat
  error_count : Nat
  error_rate : ℚ
  unique_ips : Nat
  deriving DecidableEq, Repr

/-- Stable insertion ascending by timestamp. -/
def insertByTs (e : AEntry) : List AEntry → List AEntry
  | [] => [e]
  | f :: rest => if f.timestamp ≤ e.timestamp then f :: insertByTs e rest else e :: f :: rest

/-- `sorted(log_entries, key=lambda x: x.timestamp)` (stable). -/
def sortByTs (entries : List AEntry) : List AEntry :=
  entries.foldr insertByTs []

/-- The entries of one half-open window `[cur, cur + step)`. -/
def windowRequests (entries : List AEntry) (cur step : Nat) : List AEntry :=
  entries.filter fun e => cur ≤ e.timestamp ∧ e.timestamp < cur + step

/-- The trend point of one window, skipped when the window is empty. -/
def trendPoint? (entries : List AEntry) (cur step : Nat) : Option TrendPoint :=
  let reqs := windowRequests entries cur step
  if reqs = [] then none
  else
    some ⟨cur, reqs.length, (reqs.filter (·.is_error)).length,
          ((reqs.filter (·.is_error)).length : ℚ) / reqs.length * 100,
          (reqs.map (·.ip_address)).dedup.length⟩

/-- Number of iterations of `while current_time < end_time` advancing
by `step` from `start`: `⌈(endT - start) / step⌉`.  For `step = 0` the
source loop does not terminate; the model is only used with positive
window sizes. -/
def numWindows (start endT step : Nat) : Nat :=
  if step = 0 then 0 else (endT - start + step - 1) / step

/-- `TrendAnalyzer.analyze_traffic_trends`: sort by timestamp, then
walk fixed-width windows from the first timestamp while the window
start is strictly before the last timestamp, emitting only non-empty
windows. -/
def analyzeTrafficTrends (entries : List AEntry) (windowMinutes : Nat) : List TrendPoint :=
  match sortByTs entries with
  | [] => []
  | e :: es =>
    let sorted := e :: es
    let start := e.timestamp
    let endT := (sorted.getLast (by simp)).timestamp
    let step := windowMinutes * 60
    (List.range (numWindows start endT step)).filterMap fun i =>
      trendPoint? sorted (start + i * step) step

/-! ## Fixtures used by concrete evaluations -/

/-- The date-time of the test lines. -/
def dtOct10 : DT := ⟨2023, 10, 10, 13, 55, 36⟩

/-- The 20-character date-time string of the test lines. -/
def baseTs : List Char := "10/Oct/2023:13:55:36".data

/-- A valid CLF line (the spec's literal example scenario). -/
def lineValid1 : List Char :=
  "127.0.0.1 - - [10/Oct/2023:13:55:36 +0000] \"GET /test1 HTTP/1.1\" 200 100".data

/-- A second valid CLF line. -/
def lineValid2 : List Char :=
  "127.0.0.1 - - [10/Oct/2023:13:57:36 +0000] \"POST /test3 HTTP/1.1\" 500 300".data

/-- A grammatically valid CLF line whose method token is unknown. -/
def lineFrob : List Char :=
  "127.0.0.1 - - [10/Oct/2023:13:55:36 +0000] \"FROB /test HTTP/1.1\" 200 100".data

/-- A CLF line with a syntactically invalid IP field. -/
def lineBadIp : List Char :=
  "notanip - - [10/Oct/2023:13:55:36 +0000] \"GET /test HTTP/1.1\" 200 100".data

/-- A CLF line whose status code is outside `100..599`. -/
def lineBadStatus : List Char :=
  "127.0.0.1 - - [10/Oct/2023:13:55:36 +0000] \"GET /test HTTP/1.1\" 999 100".data

/-- A CLF line with an unparsable timestamp field. -/
def lineBadTs : List Char :=
  "127.0.0.1 - - [invalid-timestamp] \"GET /test HTTP/1.1\" 200 1234".data

/-- A line matching no grammar. -/
def lineNoMatch : List Char := "This is an invalid line".data

/-- The entry parsed from `lineValid1`. -/
def entryValid1 : LogEntry :=
  ⟨"127.0.0.1", .aware dtOct10 0, .GET, "/test1", "HTTP/1.1", 200, 100, none, none, none⟩

/-- The entry parsed from `lineValid2`. -/
def entryValid2 : LogEntry :=
  ⟨"127.0.0.1", .aware ⟨2023, 10, 10, 13, 57, 36⟩ 0, .POST, "/test3", "HTTP/1.1",
   500, 300, none, none, none⟩

/-! ## Basic lemmas about the timestamp model -/

/-- A successfully parsed date-time string is exactly 20 characters. -/
theorem parseDT20_some_length {s : List Char} {dt : DT} (h : parseDT20 s = some dt) :
    s.length = 20 := by
  unfold parseDT20 at h
  split at h
  · simp
  · simp at h

/-- Taking the first 20 characters past a 20-character prefix. -/
theorem take20_append {base rest : List Char} (h : base.length = 20) :
    (base ++ rest).take 20 = base := by
  rw [← h, List.take_left]

/-- Dropping the first 20 characters past a 20-character prefix. -/
theorem drop20_append {base rest : List Char} (h : base.length = 20) :
    (base ++ rest).drop 20 = rest := by
  rw [← h, List.drop_left]

/-- C8: a timestamp string consisting of just the
`dd/Mon/YYYY:HH:MM:SS` date-time (no offset token) parses successfully,
via the naive fallback on its first 20 characters, to an offset-naive
instant. -/
theorem timestamp_without_offset_naive_fallback (base : List Char) (dt : DT)
    (h : parseDT20 base = some dt) :
    parseTimestamp base = .ok (.naive dt) := by
  have hlen : base.length = 20 := parseDT20_some_length h
  have ht : base.take 20 = base := by rw [← hlen, List.take_length]
  have hd : base.drop 20 = [] := by rw [← hlen, List.drop_length]
  have hs : strptimeAware base = .noMatch := by
    unfold strptimeAware
    rw [ht, hd, h]
  unfold parseTimestamp
  rw [hs, if_neg, ht, h]
  rw [hlen]
  simp

/-- C8 witness: the naive fallback at a concrete timestamp string. -/
theorem timestamp_without_offset_naive_fallback_witness :
    parseTimestamp baseTs = .ok (.naive dtOct10) :=
  timestamp_without_offset_naive_fallback baseTs dtOct10 rfl

/-- A zero-length span produces zero loop iterations. -/
theorem numWindows_self (t s : Nat) : numWindows t t s = 0 := by
  unfold numWindows
  rcases Nat.eq_zero_or_pos s with h | h
  · simp [h]
  · rw [if_neg (by omega)]
    have he : t - t + s - 1 = s - 1 := by omega
    rw [he]
    exact Nat.div_eq_of_lt (by omega)

/-- C2: the trend engine emits no window at all for a single-entry
collection (`while current_time < end_time` runs zero times when the
first and last timestamps coincide), and none for an empty collection.
The repository's own `test_single_entry_trends` requires exactly one
window containing the entry, so the zero-window outcome is a defect of
the loop bound, not of the claim. -/
theorem trends_single_entry_no_window (e : AEntry) (w : Nat) :
    analyzeTrafficTrends [e] w = [] ∧ analyzeTrafficTrends [] w = [] := by
  constructor
  · unfold analyzeTrafficTrends
    simp [sortByTs, insertByTs, numWindows_self]
  · rfl

/-- C4: the concrete failure modes of `parse_line`.  A line matching no
grammar and a line with a bad timestamp raise `ParseError`; but an
unknown method token, an invalid IP and an out-of-range status code
raise `ValueError` (from the `HttpMethod` enum call and
`LogEntry._validate`), contradicting both the claim and the
`parse_line` docstring, which promise a `ParseError` for every
field-level validation failure. -/
theorem parse_line_failure_modes :
    parseLine lineNoMatch =
      .error (.parseError ("Unable to parse log line: " ++
        (String.mk (lineNoMatch.take 100) ++ "..."))) ∧
    parseLine lineBadTs = .error (.parseError (tsMsgBadFormat "invalid-timestamp".data)) ∧
    parseLine lineFrob = .error (.valueError "FROB is not a valid HttpMethod") ∧
    parseLine lineBadIp = .error (.valueError "Invalid IP address format: notanip") ∧
    parseLine lineBadStatus = .error (.valueError "Invalid HTTP status code: 999") :=
  ⟨rfl, rfl, rfl, rfl, rfl⟩

/-- C5: lenient-mode streaming of two valid lines surrounding one
unknown-method line.  The claim requires both valid entries, with
`parsed_count = 2` and `error_count = 1`; instead the uncaught
`ValueError` aborts the stream after the first entry, with
`parsed_count = 1`, `error_count = 0` and no stored message. -/
theorem lenient_stream_aborts_on_valueerror :
    parseStream false [lineValid1, lineFrob, lineValid2] =
      ⟨[entryValid1], 1, 0, [], some (.valueError "FROB is not a valid HttpMethod")⟩ :=
  rfl

/-- C6: strict-mode streaming.  On a no-grammar line the stream aborts
with the documented `"Line <n>: <reason>"` `ParseError`; but on an
unknown-method line it aborts with a bare `ValueError` carrying no
1-indexed line number (and no error counted), contradicting the claim
that the surfaced failure always carries the line's position. -/
theorem strict_stream_abort_modes :
    parseStream true [lineValid1, lineNoMatch, lineValid2] =
      ⟨[entryValid1], 1, 1,
       ["Line 2: Unable to parse log line: This is an invalid line..."],
       some (.parseError "Line 2: Unable to parse log line: This is an invalid line...")⟩ ∧
    parseStream true [lineValid1, lineFrob, lineValid2] =
      ⟨[entryValid1], 1, 0, [], some (.valueError "FROB is not a valid HttpMethod")⟩ :=
  ⟨rfl, rfl⟩

/-- The claim's reading of "the offset in seconds" of a signed
four-digit `±HHMM` token, written to the spec's words
(`offset_seconds = sign*(HH*3600+MM*60)`) for comparison with the
code's behaviour. -/
def claimOffsetSeconds : List Char → Option Int
  | [sg, a, b, c, d] =>
    if (sg = '+' ∨ sg = '-') ∧ a.isDigit ∧ b.isDigit ∧ c.isDigit ∧ d.isDigit then
      some ((if sg = '+' then 1 else -1) * ((d2 a b * 3600 + d2 c d * 60 : Nat) : Int))
    else none
  | _ => none

/-- C1 counterexample: the `±HHMM` token `+0099` denotes
`0*3600 + 99*60 = 5940` seconds, inside `[-43200, 50400]`, yet parsing
fails: the `%z` pattern requires a `00..59` minutes field, so the token
is rejected as malformed rather than accepted by the range rule. -/
theorem offset_range_rule_counterexample :
    claimOffsetSeconds "+0099".data = some 5940 ∧
    (-43200 : Int) ≤ 5940 ∧ (5940 : Int) ≤ 50400 ∧
    parseTimestamp "10/Oct/2023:13:55:36 +0099".data =
      .error (tsMsgBadTzFormat "10/Oct/2023:13:55:36 +0099".data "+0099".data) :=
  ⟨rfl, by norm_num, by norm_num, rfl⟩

/-- C3 counterexample: a report generated from the empty collection has
an empty `hourly_traffic` mapping (`_empty_report`), not 24 zero
buckets. -/
theorem empty_report_hourly_traffic_empty :
    (generateReport [] 10).hourly_traffic = [] :=
  rfl

/-- ASCII digits are not Python whitespace. -/
theorem isPyWS_eq_false_of_isDigit {c : Char} (h : c.isDigit = true) : isPyWS c = false := by
  unfold isPyWS
  by_contra hws
  rw [Bool.not_eq_false, decide_eq_true_eq] at hws
  rcases hws with rfl | rfl | rfl | rfl | rfl | rfl | rfl | rfl | rfl | rfl <;>
    exact absurd h (by decide)

/-- `strip` removes a leading space. -/
theorem pyStrip_cons_space (l : List Char) : pyStrip (' ' :: l) = pyStrip l := by
  unfold pyStrip
  rw [List.dropWhile_cons]
  simp [isPyWS]

/-- A five-character token with non-whitespace first and last characters
is untouched by `strip`. -/
theorem pyStrip_token5 (sg a b c d : Char) (hsg : isPyWS sg = false)
    (hd : isPyWS d = false) : pyStrip [sg, a, b, c, d] = [sg, a, b, c, d] := by
  simp [pyStrip, List.dropWhile_cons, hsg, hd]

/-- The out-of-range message mentions "timezone". -/
theorem mentions_tsMsgOutOfRange (s : List Char) :
    mentionsTimezoneOrOffset (tsMsgOutOfRange s) :=
  Or.inl ⟨"Invalid ", _, rfl⟩

/-- The too-large-offset message mentions "timezone". -/
theorem mentions_tsMsgTooLarge (s : List Char) :
    mentionsTimezoneOrOffset (tsMsgTooLarge s) :=
  Or.inl ⟨"Invalid ", _, rfl⟩

/-- The malformed-token message mentions "timezone". -/
theorem mentions_tsMsgBadTzFormat (s tz : List Char) :
    mentionsTimezoneOrOffset (tsMsgBadTzFormat s tz) :=
  Or.inl ⟨"Invalid ", _, rfl⟩

/-- A digit character is at least `'0'`. -/
theorem zero_le_of_isDigit {c : Char} (h : c.isDigit = true) : '0' ≤ c := by
  rw [Char.isDigit, Bool.and_eq_true, decide_eq_true_eq, decide_eq_true_eq] at h
  exact h.1

/-- An offset inside the accepted range is below 24 hours. -/
theorem natAbs_lt_day {off : Int} (h1 : -43200 ≤ off) (h2 : off ≤ 50400) :
    ¬ 86400 ≤ off.natAbs := by omega

/-- An offset inside the accepted range passes the range check. -/
theorem range_check_passes {off : Int} (h1 : -43200 ≤ off) (h2 : off ≤ 50400) :
    ¬ (off < -43200 ∨ off > 50400) := by omega

/-- An offset outside the accepted range fails the range check. -/
theorem range_check_fails {off : Int} (h : ¬ (-43200 ≤ off ∧ off ≤ 50400)) :
    off < -43200 ∨ off > 50400 := by omega

/-- C1 (amended): for a timestamp built from a valid 20-character
date-time, a space and a signed four-digit `±HHMM` token, parsing
succeeds — with the offset-aware instant — exactly when the minutes
part is `00..59` (the tens digit is at most `'5'`, as the `%z` pattern
requires) and the offset `sign*(HH*3600+MM*60)` lies in
`[-43200, 50400]`; in every other case parsing fails with an error
message mentioning "timezone" or "offset". -/
theorem offset_range_rule_amended (base : List Char) (dt : DT) (sg a b c d : Char)
    (off : Int) (hb : parseDT20 base = some dt) (hsg : sg = '+' ∨ sg = '-')
    (hda : a.isDigit = true) (hdb : b.isDigit = true) (hdc : c.isDigit = true)
    (hdd : d.isDigit = true)
    (hoff : off = if sg = '+' then ((d2 a b * 3600 + d2 c d * 60 : Nat) : Int)
                  else -((d2 a b * 3600 + d2 c d * 60 : Nat) : Int)) :
    ((c ≤ '5' ∧ -43200 ≤ off ∧ off ≤ 50400) →
      parseTimestamp (base ++ (' ' :: [sg, a, b, c, d])) = .ok (.aware dt off)) ∧
    (¬(c ≤ '5' ∧ -43200 ≤ off ∧ off ≤ 50400) →
      ∃ m, parseTimestamp (base ++ (' ' :: [sg, a, b, c, d])) = .error m ∧
        mentionsTimezoneOrOffset m) := by
  have hlen : base.length = 20 := parseDT20_some_length hb
  have ht : (base ++ (' ' :: [sg, a, b, c, d])).take 20 = base := take20_append hlen
  have hd : (base ++ (' ' :: [sg, a, b, c, d])).drop 20 = ' ' :: [sg, a, b, c, d] :=
    drop20_append hlen
  have habs : off.natAbs = d2 a b * 3600 + d2 c d * 60 := by
    rcases em (sg = '+') with h | h
    · rw [hoff, if_pos h]; exact Int.natAbs_ofNat _
    · rw [hoff, if_neg h, Int.natAbs_neg]; exact Int.natAbs_ofNat _
  have hsgws : isPyWS sg = false := by rcases hsg with rfl | rfl <;> decide
  have hwsp : isPyWS ' ' = true := by decide
  have hdw : List.dropWhile isPyWS [sg, a, b, c, d] = [sg, a, b, c, d] := by
    rw [List.dropWhile_cons]
    simp [hsgws]
  constructor
  · rintro ⟨h5, hlo, hhi⟩
    have hz : tzOffset? [sg, a, b, c, d] = some off := by
      show (if _ then _ else _) = _
      rw [if_pos ⟨hsg, hda, hdb, ⟨zero_le_of_isDigit hdc, h5⟩, hdc, hdd⟩, hoff]
    have hnb : ¬ 86400 ≤ off.natAbs := natAbs_lt_day hlo hhi
    have hsa : strptimeAware (base ++ (' ' :: [sg, a, b, c, d])) = .aware dt off := by
      unfold strptimeAware
      rw [ht, hd, hb]
      show (if isPyWS ' ' = true then _ else _) = _
      rw [if_pos hwsp, hdw, hz]
      show (if 86400 ≤ off.natAbs then _ else _) = _
      rw [if_neg hnb]
    unfold parseTimestamp
    rw [hsa]
    show (if off < -43200 ∨ off > 50400 then _ else _) = _
    rw [if_neg (range_check_passes hlo hhi)]
  · intro hfail
    by_cases h5 : c ≤ '5'
    · have hz : tzOffset? [sg, a, b, c, d] = some off := by
        show (if _ then _ else _) = _
        rw [if_pos ⟨hsg, hda, hdb, ⟨zero_le_of_isDigit hdc, h5⟩, hdc, hdd⟩, hoff]
      have hrange : off < -43200 ∨ off > 50400 := by
        rcases em (-43200 ≤ off ∧ off ≤ 50400) with h | h
        · exact absurd ⟨h5, h⟩ hfail
        · exact range_check_fails h
      by_cases hbig : 86400 ≤ off.natAbs
      · have hsa : strptimeAware (base ++ (' ' :: [sg, a, b, c, d])) = .offsetError off := by
          unfold strptimeAware
          rw [ht, hd, hb]
          show (if isPyWS ' ' = true then _ else _) = _
          rw [if_pos hwsp, hdw, hz]
          show (if 86400 ≤ off.natAbs then _ else _) = _
          rw [if_pos hbig]
        refine ⟨tsMsgTooLarge (base ++ (' ' :: [sg, a, b, c, d])), ?_, mentions_tsMsgTooLarge _⟩
        unfold parseTimestamp
        rw [hsa]
      · have hsa : strptimeAware (base ++ (' ' :: [sg, a, b, c, d])) = .aware dt off := by
          unfold strptimeAware
          rw [ht, hd, hb]
          show (if isPyWS ' ' = true then _ else _) = _
          rw [if_pos hwsp, hdw, hz]
          show (if 86400 ≤ off.natAbs then _ else _) = _
          rw [if_neg hbig]
        refine ⟨tsMsgOutOfRange (base ++ (' ' :: [sg, a, b, c, d])), ?_, mentions_tsMsgOutOfRange _⟩
        unfold parseTimestamp
        rw [hsa]
        show (if off < -43200 ∨ off > 50400 then _ else _) = _
        rw [if_pos hrange]
    · have hz : tzOffset? [sg, a, b, c, d] = none := by
        show (if _ then _ else _) = _
        rw [if_neg]
        rintro ⟨-, -, -, ⟨-, hc5⟩, -, -⟩
        exact h5 hc5
      have hsa : strptimeAware (base ++ (' ' :: [sg, a, b, c, d])) = .noMatch := by
        unfold strptimeAware
        rw [ht, hd, hb]
        show (if isPyWS ' ' = true then _ else _) = _
        rw [if_pos hwsp, hdw, hz]
      have hstrip : pyStrip ((base ++ (' ' :: [sg, a, b, c, d])).drop 20) =
          [sg, a, b, c, d] := by
        rw [hd, pyStrip_cons_space,
            pyStrip_token5 sg a b c d hsgws (isPyWS_eq_false_of_isDigit hdd)]
      refine ⟨tsMsgBadTzFormat (base ++ (' ' :: [sg, a, b, c, d])) (pyStrip ((base ++ (' ' :: [sg, a, b, c, d])).drop 20)), ?_, mentions_tsMsgBadTzFormat _ _⟩
      unfold parseTimestamp
      rw [hsa, if_pos]
      constructor
      · simp [hlen]
      constructor
      · simp [hlen]
      · rw [hstrip]
        exact ⟨by simp, by rcases hsg with rfl | rfl <;> simp⟩

/-- C1 witness: the boundary offset `+1400` succeeds as an aware
instant, and the out-of-range offset `-1300` fails with a message
mentioning "timezone" or "offset". -/
theorem offset_range_rule_amended_witness :
    parseTimestamp ("10/Oct/2023:13:55:36".data ++ (' ' :: ['+', '1', '4', '0', '0'])) =
      .ok (.aware dtOct10 50400) ∧
    (∃ m, parseTimestamp ("10/Oct/2023:13:55:36".data ++ (' ' :: ['-', '1', '3', '0', '0'])) =
      .error m ∧ mentionsTimezoneOrOffset m) :=
  ⟨(offset_range_rule_amended "10/Oct/2023:13:55:36".data dtOct10 '+' '1' '4' '0' '0'
      50400 rfl (Or.inl rfl) rfl rfl rfl rfl (by decide)).1
      ⟨by decide, by norm_num, by norm_num⟩,
   (offset_range_rule_amended "10/Oct/2023:13:55:36".data dtOct10 '-' '1' '3' '0' '0'
      (-46800) rfl (Or.inr rfl) rfl rfl rfl rfl (by decide)).2
      (by rintro ⟨-, h, -⟩; norm_num at h)⟩

/-! ## Counter and stable-sort lemmas (top-N ranking, hourly keys) -/

/-- First-occurrence order of the distinct values of a list (the key
order of a Python dict/Counter fed left to right). -/
def dedupFirst {α : Type} [DecidableEq α] (l : List α) : List α :=
  l.foldl (fun acc x => if x ∈ acc then acc else acc ++ [x]) []

/-- The count associated with the first entry of a key in an
association list. -/
def cnt {α : Type} [DecidableEq α] : List (α × Nat) → α → Nat
  | [], _ => 0
  | (k0, c) :: rest, k => if k0 = k then c else cnt rest k

/-- `bump` keeps the key list, appending the key only when new. -/
theorem bump_map_fst {α : Type} [DecidableEq α] (acc : List (α × Nat)) (x : α) :
    (bump acc x).map Prod.fst =
      if x ∈ acc.map Prod.fst then acc.map Prod.fst else acc.map Prod.fst ++ [x] := by
  induction acc with
  | nil => simp [bump]
  | cons p rest ih =>
    obtain ⟨k, c⟩ := p
    by_cases hk : k = x
    · subst hk
      simp [bump]
    · simp only [bump, if_neg hk, List.map_cons, ih, List.mem_cons]
      by_cases hm : x ∈ rest.map Prod.fst
      · rw [if_pos hm, if_pos (Or.inr hm)]
      · rw [if_neg hm, if_neg (by rintro (h | h); exact hk h.symm; exact hm h)]
        simp

/-- The keys of a running `Counter` fold are the first-occurrence
dedup of the keys of the input so far. -/
theorem foldl_bump_map_fst {α : Type} [DecidableEq α] (l : List α) :
    ∀ acc : List (α × Nat),
      (l.foldl bump acc).map Prod.fst =
        l.foldl (fun a x => if x ∈ a then a else a ++ [x]) (acc.map Prod.fst) := by
  induction l with
  | nil => intro acc; rfl
  | cons x xs ih =>
    intro acc
    simp only [List.foldl_cons, ih (bump acc x), bump_map_fst]

/-- C7/C3 key lemma: `Counter` keys in first-occurrence order. -/
theorem counterOf_map_fst {α : Type} [DecidableEq α] (l : List α) :
    (counterOf l).map Prod.fst = dedupFirst l :=
  foldl_bump_map_fst l []

/-- The first-occurrence dedup accumulator stays duplicate-free. -/
theorem dedupFirst_aux_nodup {α : Type} [DecidableEq α] (l : List α) :
    ∀ acc : List α, acc.Nodup →
      (l.foldl (fun a x => if x ∈ a then a else a ++ [x]) acc).Nodup := by
  induction l with
  | nil => intro acc h; exact h
  | cons x xs ih =>
    intro acc h
    by_cases hm : x ∈ acc
    · simpa [hm] using ih acc h
    · have hnd : (acc ++ [x]).Nodup := by
        rw [List.nodup_append]
        refine ⟨h, List.nodup_singleton x, ?_⟩
        intro a ha hax
        rw [List.mem_singleton] at hax
        subst hax
        exact hm ha
      simpa [hm] using ih (acc ++ [x]) hnd

/-- The first-occurrence dedup is duplicate-free. -/
theorem dedupFirst_nodup {α : Type} [DecidableEq α] (l : List α) : (dedupFirst l).Nodup :=
  dedupFirst_aux_nodup l [] List.nodup_nil

/-- Members of the first-occurrence dedup come from the input. -/
theorem dedupFirst_aux_subset {α : Type} [DecidableEq α] (l : List α) :
    ∀ acc : List α, ∀ y ∈ l.foldl (fun a x => if x ∈ a then a else a ++ [x]) acc,
      y ∈ acc ∨ y ∈ l := by
  induction l with
  | nil => intro acc y hy; exact Or.inl hy
  | cons x xs ih =>
    intro acc y hy
    simp only [List.foldl_cons] at hy
    by_cases hm : x ∈ acc
    · rw [if_pos hm] at hy
      rcases ih acc y hy with h | h
      · exact Or.inl h
      · exact Or.inr (List.mem_cons_of_mem _ h)
    · rw [if_neg hm] at hy
      rcases ih (acc ++ [x]) y hy with h | h
      · rcases List.mem_append.mp h with h | h
        · exact Or.inl h
        · simp only [List.mem_singleton] at h
          exact Or.inr (h ▸ List.mem_cons_self _ _)
      · exact Or.inr (List.mem_cons_of_mem _ h)

/-- Members of the first-occurrence dedup come from the input. -/
theorem dedupFirst_subset {α : Type} [DecidableEq α] {l : List α} {y : α}
    (h : y ∈ dedupFirst l) : y ∈ l := by
  rcases dedupFirst_aux_subset l [] y h with h | h
  · cases h
  · exact h

/-- `bump` adds one to the count of the bumped key and nothing else. -/
theorem cnt_bump {α : Type} [DecidableEq α] (acc : List (α × Nat)) (x k : α) :
    cnt (bump acc x) k = cnt acc k + (if x = k then 1 else 0) := by
  induction acc with
  | nil =>
    by_cases h : x = k <;> simp [bump, cnt, h]
  | cons p rest ih =>
    obtain ⟨k0, c⟩ := p
    by_cases h0 : k0 = x
    · subst h0
      by_cases hk : k0 = k <;> simp [bump, cnt, hk]
    · by_cases hk : k0 = k
      · subst hk
        have hxk : ¬ x = k0 := fun hh => h0 hh.symm
        simp [bump, cnt, h0, hxk]
      · simp [bump, cnt, h0, hk, ih]

/-- Running-count invariant of the `Counter` fold. -/
theorem cnt_foldl_bump {α : Type} [DecidableEq α] (l : List α) :
    ∀ (acc : List (α × Nat)) (k : α),
      cnt (l.foldl bump acc) k = cnt acc k + l.count k := by
  induction l with
  | nil => intro acc k; simp
  | cons x xs ih =>
    intro acc k
    simp only [List.foldl_cons, ih (bump acc x) k, cnt_bump, List.count_cons, beq_iff_eq]
    by_cases h : x = k
    · simp only [if_pos h, if_pos h.symm]
      omega
    · have hk : ¬ k = x := fun hh => h hh.symm
      simp only [if_neg h, if_neg hk]
      omega

/-- In an association list with duplicate-free keys, every entry's
count is the looked-up count. -/
theorem cnt_of_mem_nodup {α : Type} [DecidableEq α] :
    ∀ {al : List (α × Nat)}, (al.map Prod.fst).Nodup →
      ∀ {p : α × Nat}, p ∈ al → cnt al p.1 = p.2 := by
  intro al
  induction al with
  | nil => intro _ p hp; cases hp
  | cons q rest ih =>
    intro hnd p hp
    obtain ⟨k0, c0⟩ := q
    rcases List.mem_cons.mp hp with rfl | hp'
    · simp [cnt]
    · have hk0 : k0 ≠ p.1 := by
        intro h
        have : p.1 ∈ rest.map Prod.fst := List.mem_map_of_mem Prod.fst hp'
        rw [← h] at this
        exact (List.nodup_cons.mp hnd).1 this
      simp only [cnt, if_neg hk0]
      exact ih (List.nodup_cons.mp hnd).2 hp'

/-- C7 counting lemma: every `Counter` entry carries the exact number
of occurrences of its key. -/
theorem counterOf_counts {α : Type} [DecidableEq α] (l : List α) :
    ∀ p ∈ counterOf l, p.2 = l.count p.1 := by
  intro p hp
  have hnd : ((counterOf l).map Prod.fst).Nodup := by
    rw [counterOf_map_fst]; exact dedupFirst_nodup l
  have h1 : cnt (counterOf l) p.1 = p.2 := cnt_of_mem_nodup hnd hp
  have h2 : cnt (counterOf l) p.1 = cnt ([] : List (α × Nat)) p.1 + l.count p.1 :=
    cnt_foldl_bump l [] p.1
  simp only [cnt] at h2
  omega

/-- Members of a stable descending insertion. -/
theorem mem_insertByCountDesc {α : Type} {p y : α × Nat} :
    ∀ {l : List (α × Nat)}, y ∈ insertByCountDesc p l → y = p ∨ y ∈ l := by
  intro l
  induction l with
  | nil => intro h; simpa [insertByCountDesc] using h
  | cons q rest ih =>
    intro h
    unfold insertByCountDesc at h
    split at h
    · rcases List.mem_cons.mp h with rfl | h'
      · exact Or.inr (List.mem_cons_self _ _)
      · rcases ih h' with h'' | h''
        · exact Or.inl h''
        · exact Or.inr (List.mem_cons_of_mem _ h'')
    · rcases List.mem_cons.mp h with rfl | h'
      · exact Or.inl rfl
      · exact Or.inr h'

/-- Stable descending insertion preserves descending order. -/
theorem pairwise_insertByCountDesc {α : Type} (p : α × Nat) :
    ∀ {l : List (α × Nat)}, List.Pairwise (fun x y => y.2 ≤ x.2) l →
      List.Pairwise (fun x y => y.2 ≤ x.2) (insertByCountDesc p l) := by
  intro l
  induction l with
  | nil => intro _; simp [insertByCountDesc]
  | cons q rest ih =>
    intro h
    unfold insertByCountDesc
    split
    · rename_i hlt
      rw [List.pairwise_cons]
      refine ⟨?_, ih (List.pairwise_cons.mp h).2⟩
      intro y hy
      rcases mem_insertByCountDesc hy with rfl | hy'
      · omega
      · exact (List.pairwise_cons.mp h).1 y hy'
    · rename_i hge
      rw [List.pairwise_cons]
      refine ⟨?_, h⟩
      intro y hy
      rcases List.mem_cons.mp hy with rfl | hy'
      · omega
      · have := (List.pairwise_cons.mp h).1 y hy'
        omega

/-- C7 ordering lemma: the ranking is descending by count. -/
theorem sortByCountDesc_pairwise {α : Type} (l : List (α × Nat)) :
    List.Pairwise (fun x y => y.2 ≤ x.2) (sortByCountDesc l) := by
  induction l with
  | nil => simp [sortByCountDesc]
  | cons p rest ih => exact pairwise_insertByCountDesc p ih

/-- Filtering one count level through a stable descending insertion:
an element of that level is inserted in front of the level (it passes
only strictly larger counts), so the level keeps first-seen order. -/
theorem filter_insertByCountDesc {α : Type} (p : α × Nat) (c : Nat) :
    ∀ l : List (α × Nat),
      (insertByCountDesc p l).filter (fun q => q.2 = c) =
        if p.2 = c then p :: l.filter (fun q => q.2 = c)
        else l.filter (fun q => q.2 = c) := by
  intro l
  induction l with
  | nil =>
    by_cases h : p.2 = c <;> simp [insertByCountDesc, h]
  | cons q rest ih =>
    unfold insertByCountDesc
    split
    · rename_i hlt
      by_cases hq : q.2 = c
      · have hp : ¬ p.2 = c := by omega
        simp [List.filter_cons, hq, hp, ih]
      · simp [List.filter_cons, hq, ih]
    · rename_i hge
      by_cases hp : p.2 = c <;> simp [List.filter_cons, hp]

/-- C7 stability lemma: at every count level the ranking lists the
keys in the original (first-occurrence) order. -/
theorem sortByCountDesc_filter {α : Type} (l : List (α × Nat)) (c : Nat) :
    (sortByCountDesc l).filter (fun q => q.2 = c) = l.filter (fun q => q.2 = c) := by
  induction l with
  | nil => rfl
  | cons p rest ih =>
    show (insertByCountDesc p (sortByCountDesc rest)).filter _ = _
    rw [filter_insertByCountDesc]
    by_cases hp : p.2 = c <;> simp [List.filter_cons, hp, ih]

/-- An analytics entry fixture differing only in path. -/
def entryWithPath (p : String) : AEntry := ⟨"10.0.0.1", 0, p, 200, 1, none, none, none⟩

/-- C7: top-N ranking truncates the stable descending-by-count sort of
the insertion-ordered tally: the tally keys appear in first-occurrence
order with exact occurrence counts; the ranking is descending by count;
and within each count level it preserves the tally (first-occurrence)
order; the spec's `/a, /a, /b` example ranks `/a` (count 2) before `/b`
(count 1). -/
theorem topn_ranking_rule (entries : List AEntry) (n : Nat) :
    getTopEndpoints entries n =
      (sortByCountDesc (counterOf (entries.map (·.path)))).take n ∧
    getTopIps entries n =
      (sortByCountDesc (counterOf (entries.map (·.ip_address)))).take n ∧
    (counterOf (entries.map (·.path))).map Prod.fst = dedupFirst (entries.map (·.path)) ∧
    (∀ p ∈ counterOf (entries.map (·.path)), p.2 = (entries.map (·.path)).count p.1) ∧
    List.Pairwise (fun x y => y.2 ≤ x.2)
      (sortByCountDesc (counterOf (entries.map (·.path)))) ∧
    (∀ c, (sortByCountDesc (counterOf (entries.map (·.path)))).filter (fun q => q.2 = c) =
      (counterOf (entries.map (·.path))).filter (fun q => q.2 = c)) ∧
    getTopEndpoints [entryWithPath "/a", entryWithPath "/a", entryWithPath "/b"] 2 =
      [("/a", 2), ("/b", 1)] :=
  ⟨rfl, rfl, counterOf_map_fst _, counterOf_counts _, sortByCountDesc_pairwise _,
   fun c => sortByCountDesc_filter _ c, rfl⟩

/-- C7 witness: the ranking rule evaluated on the spec's example. -/
theorem topn_ranking_rule_witness :
    getTopEndpoints [entryWithPath "/a", entryWithPath "/a", entryWithPath "/b"] 2 =
      [("/a", 2), ("/b", 1)] :=
  (topn_ranking_rule [entryWithPath "/a", entryWithPath "/a", entryWithPath "/b"] 2).2.2.2.2.2.2

/-! ## Ascending key sort lemmas (hourly mapping) -/

/-- Members of a stable ascending insertion. -/
theorem mem_insertByKeyAsc {p y : Nat × Nat} :
    ∀ {l : List (Nat × Nat)}, y ∈ insertByKeyAsc p l → y = p ∨ y ∈ l := by
  intro l
  induction l with
  | nil => intro h; simpa [insertByKeyAsc] using h
  | cons q rest ih =>
    intro h
    unfold insertByKeyAsc at h
    split at h
    · rcases List.mem_cons.mp h with rfl | h'
      · exact Or.inr (List.mem_cons_self _ _)
      · rcases ih h' with h'' | h''
        · exact Or.inl h''
        · exact Or.inr (List.mem_cons_of_mem _ h'')
    · rcases List.mem_cons.mp h with rfl | h'
      · exact Or.inl rfl
      · exact Or.inr h'

/-- Stable ascending insertion preserves ascending key order. -/
theorem pairwise_insertByKeyAsc (p : Nat × Nat) :
    ∀ {l : List (Nat × Nat)}, List.Pairwise (fun x y => x.1 ≤ y.1) l →
      List.Pairwise (fun x y => x.1 ≤ y.1) (insertByKeyAsc p l) := by
  intro l
  induction l with
  | nil => intro _; simp [insertByKeyAsc]
  | cons q rest ih =>
    intro h
    unfold insertByKeyAsc
    split
    · rename_i hlt
      rw [List.pairwise_cons]
      refine ⟨?_, ih (List.pairwise_cons.mp h).2⟩
      intro y hy
      rcases mem_insertByKeyAsc hy with rfl | hy'
      · omega
      · exact (List.pairwise_cons.mp h).1 y hy'
    · rename_i hge
      rw [List.pairwise_cons]
      refine ⟨?_, h⟩
      intro y hy
      rcases List.mem_cons.mp hy with rfl | hy'
      · omega
      · have := (List.pairwise_cons.mp h).1 y hy'
        omega

/-- The key sort is ascending. -/
theorem sortByKeyAsc_pairwise (l : List (Nat × Nat)) :
    List.Pairwise (fun x y => x.1 ≤ y.1) (sortByKeyAsc l) := by
  induction l with
  | nil => simp [sortByKeyAsc]
  | cons p rest ih => exact pairwise_insertByKeyAsc p ih

/-- Stable ascending insertion permutes the extended list. -/
theorem perm_insertByKeyAsc (p : Nat × Nat) :
    ∀ l : List (Nat × Nat), List.Perm (insertByKeyAsc p l) (p :: l) := by
  intro l
  induction l with
  | nil => simp [insertByKeyAsc]
  | cons q rest ih =>
    unfold insertByKeyAsc
    split
    · exact (ih.cons q).trans (List.Perm.swap p q rest)
    · rfl

/-- The key sort permutes its input. -/
theorem sortByKeyAsc_perm (l : List (Nat × Nat)) : List.Perm (sortByKeyAsc l) l := by
  induction l with
  | nil => rfl
  | cons p rest ih => exact (perm_insertByKeyAsc p (sortByKeyAsc rest)).trans (ih.cons p)

/-- C3 (amended): `get_hourly_traffic_pattern` always emits exactly the
24 keys `"00:00"`..`"23:00"` in ascending order — also on the empty
collection — and a generated report carries those keys for every
non-empty collection (the empty collection takes the `_empty_report`
path, refuted separately). -/
theorem hourly_traffic_always_24_keys (entries : List AEntry) (n : Nat) :
    (getHourlyTrafficPattern entries).map Prod.fst = (List.range 24).map hourKey ∧
    (entries ≠ [] →
      (generateReport entries n).hourly_traffic.map Prod.fst = (List.range 24).map hourKey) := by
  have hmain : ∀ es : List AEntry,
      (getHourlyTrafficPattern es).map Prod.fst = (List.range 24).map hourKey := by
    intro es
    unfold getHourlyTrafficPattern
    set observed := counterOf (es.map fun e => hourOf e.timestamp) with hobs
    set missing := ((List.range 24).filter fun h => h ∉ observed.map (·.1)).map
      (fun h => (h, 0)) with hmiss
    have hobs_nodup : (observed.map Prod.fst).Nodup := by
      rw [hobs, counterOf_map_fst]
      exact dedupFirst_nodup _
    have hobs_sub : ∀ x ∈ observed.map Prod.fst, x ∈ List.range 24 := by
      intro x hx
      rw [hobs, counterOf_map_fst] at hx
      have hx' := dedupFirst_subset hx
      rw [List.mem_map] at hx'
      obtain ⟨e, -, rfl⟩ := hx'
      exact List.mem_range.mpr (Nat.mod_lt _ (by norm_num))
    have hmiss_fst : missing.map Prod.fst =
        (List.range 24).filter fun h => h ∉ observed.map (·.1) := by
      rw [hmiss, List.map_map]
      exact List.map_id _
    have hperm : List.Perm ((observed ++ missing).map Prod.fst) (List.range 24) := by
      rw [List.map_append, hmiss_fst]
      have hnd : ((observed.map Prod.fst) ++
          ((List.range 24).filter fun h => h ∉ observed.map (·.1))).Nodup := by
        rw [List.nodup_append]
        refine ⟨hobs_nodup, (List.nodup_range 24).filter _, ?_⟩
        intro a ha haf
        have := (List.mem_filter.mp haf).2
        simp only [decide_eq_true_eq] at this
        exact this ha
      refine (List.perm_ext_iff_of_nodup hnd (List.nodup_range 24)).mpr ?_
      intro a
      constructor
      · intro ha
        rcases List.mem_append.mp ha with h | h
        · exact hobs_sub a h
        · exact (List.mem_filter.mp h).1
      · intro ha
        by_cases hm : a ∈ observed.map Prod.fst
        · exact List.mem_append.mpr (Or.inl hm)
        · refine List.mem_append.mpr (Or.inr (List.mem_filter.mpr ⟨ha, ?_⟩))
          simpa using hm
    have hs1 : List.Sorted (· ≤ ·) ((sortByKeyAsc (observed ++ missing)).map Prod.fst) :=
      List.Pairwise.map Prod.fst (fun _ _ h => h) (sortByKeyAsc_pairwise _)
    have hs2 : List.Sorted (· ≤ ·) (List.range 24) := List.pairwise_le_range 24
    have hkeys : (sortByKeyAsc (observed ++ missing)).map Prod.fst = List.range 24 :=
      List.eq_of_perm_of_sorted (((sortByKeyAsc_perm _).map Prod.fst).trans hperm) hs1 hs2
    have hcomm : ∀ l : List (Nat × Nat),
        (l.map fun p => (hourKey p.1, p.2)).map Prod.fst = (l.map Prod.fst).map hourKey := by
      intro l
      simp [List.map_map, Function.comp]
    rw [hcomm, hkeys]
  refine ⟨hmain entries, fun hne => ?_⟩
  unfold generateReport
  rw [if_neg hne]
  exact hmain entries

/-- C3 witness: the 24 keys of a one-entry report. -/
theorem hourly_traffic_always_24_keys_witness :
    (generateReport [entryWithPath "/a"] 10).hourly_traffic.map Prod.fst =
      (List.range 24).map hourKey :=
  (hourly_traffic_always_24_keys [entryWithPath "/a"] 10).2 (by simp)

/-! ## C9: response-time conversion -/

/-- A valid extended-format line (from the repository's tests). -/
def lineExtended : List Char :=
  ("127.0.0.1 - - [10/Oct/2023:13:55:36 +0000] \"GET /test HTTP/1.1\" 200 1234 " ++
   "\"https://example.com\" \"Mozilla/5.0\" 150000").data

/-- The captures of `lineExtended` under the extended pattern. -/
def capsExtended : Caps :=
  [(1, "127.0.0.1".data), (2, "10/Oct/2023:13:55:36 +0000".data), (3, "GET".data),
   (4, "/test".data), (5, "HTTP/1.1".data), (6, "200".data), (7, "1234".data),
   (8, "https://example.com".data), (9, "Mozilla/5.0".data), (10, "150000".data)]

/-- The entry parsed from `lineExtended`; its response time is
`150000 / 1000 = 150` seconds. -/
def entryExtended : LogEntry :=
  ⟨"127.0.0.1", .aware dtOct10 0, .GET, "/test", "HTTP/1.1", 200, 1234,
   some "https://example.com", some "Mozilla/5.0",
   some ((natOfDigits "150000".data : ℚ) / 1000)⟩

/-- C9: an entry successfully parsed from a line matching the extended
grammar carries `response_time = t / 1000` where `t` is the trailing
integer capture (the literal divide-by-1000 of the source, as an exact
rational); entries from combined or CLF lines carry no response time. -/
theorem response_time_divide_by_1000 :
    (∀ (line : List Char) (cs : Caps) (e : LogEntry),
      matchAtoms extendedAtoms line = some cs → parseLine line = .ok e →
      e.response_time = some ((natOfDigits (getGroup cs 10) : ℚ) / 1000)) ∧
    (∀ (line : List Char) (cs : Caps) (e : LogEntry),
      matchAtoms extendedAtoms line = none → matchAtoms combinedAtoms line = some cs →
      parseLine line = .ok e → e.response_time = none) ∧
    (∀ (line : List Char) (cs : Caps) (e : LogEntry),
      matchAtoms extendedAtoms line = none → matchAtoms combinedAtoms line = none →
      matchAtoms clfAtoms line = some cs → parseLine line = .ok e →
      e.response_time = none) := by
  refine ⟨?_, ?_, ?_⟩
  · intro line cs e hext hok
    simp only [parseLine, hext] at hok
    simp only [createEntryFromMatch] at hok
    split at hok
    · cases hok
    · split at hok
      · cases hok
      · split at hok
        · cases hok
        · cases hok
          rfl
  · intro line cs e hext hcomb hok
    simp only [parseLine, hext, hcomb] at hok
    simp only [createEntryFromMatch] at hok
    split at hok
    · cases hok
    · split at hok
      · cases hok
      · split at hok
        · cases hok
        · cases hok
          rfl
  · intro line cs e hext hcomb hclf hok
    simp only [parseLine, hext, hcomb, hclf] at hok
    simp only [createEntryFromClfMatch] at hok
    split at hok
    · cases hok
    · split at hok
      · cases hok
      · split at hok
        · cases hok
        · cases hok
          rfl

/-- C9 witness: the conversion rule at the repository's extended test
line, whose trailing field `150000` yields `response_time = 150`. -/
theorem response_time_divide_by_1000_witness :
    matchAtoms extendedAtoms lineExtended = some capsExtended ∧
    parseLine lineExtended = .ok entryExtended ∧
    entryExtended.response_time = some ((natOfDigits (getGroup capsExtended 10) : ℚ) / 1000) ∧
    (natOfDigits (getGroup capsExtended 10) : ℚ) / 1000 = 150 :=
  ⟨rfl, rfl,
   response_time_divide_by_1000.1 lineExtended capsExtended entryExtended rfl rfl,
   by rw [show natOfDigits (getGroup capsExtended 10) = 150000 from rfl]; norm_num⟩

end LogRepo
